import Mathlib

/-!
# Shallow embedding of the scribble-backend game server

Definitions below are translated from the JavaScript sources of the
repository: the room lifecycle module (`validateSettings`, `createRoom`,
`joinRoom`, `leaveRoom`, `updateRoomSettings`, `serializeRoom`), the game
engine (`initializeGameState`, `startGame`, `getNextDrawer`, `startRound`,
`progressToNextDrawer`, `resetGame`), the word engine (`WORD_LIST`,
`getWordPool`, `generateWordOptions`, `maskWord`, `normalizeWord`), the guess
engine (`normalizeGuess`, `validateGuessFormat`, `validateGuess`), the score
engine (`calculateScore`, `awardGuessScore`), the player module's export
table, and the socket handlers of `index.js` that wire them together.

Modelling conventions:
* JS strings are Lean `String`s; case conversion and trimming are modelled
  for the ASCII range (`lowerChar`, `isJsWs`);
* JS numbers are `ℚ` where fractional values can occur (raw settings input,
  score arithmetic, with `Int.floor` for `Math.floor`) and `ℤ`/`ℕ` where the
  code only ever produces integers; a NaN that can arise on one dead branch
  of `awardGuessScore` is modelled by an `Option`;
* `undefined`/`null` are `Option.none`; JS out-of-bounds array indexing is
  `List.get?`;
* the `Math.random()` comparator shuffle is modelled by quantifying over
  permutations of the word pool, and random id minting by an id parameter;
* mutation is modelled by returning the updated record next to the result
  object the JS function returns.
-/

namespace Scribble

/-! ## ASCII string primitives (JS `toLowerCase`, `trim`) -/

/-- ASCII model of JS `String.prototype.toLowerCase` on one character. -/
def lowerChar (c : Char) : Char :=
  if 65 ≤ c.toNat ∧ c.toNat ≤ 90 then Char.ofNat (c.toNat + 32) else c

/-- Whitespace recognised by JS `String.prototype.trim` (ASCII subset:
space, tab, LF, CR, VT, FF). -/
def isJsWs (c : Char) : Bool :=
  decide (c.toNat ∈ ([32, 9, 10, 13, 11, 12] : List Nat))

/-- JS `toLowerCase` on a string (ASCII model). -/
def jsLower (s : String) : String :=
  ⟨s.data.map lowerChar⟩

/-- Left trim: drop leading whitespace. -/
def trimLeft (l : List Char) : List Char :=
  l.dropWhile isJsWs

/-- Right trim: drop trailing whitespace. -/
def trimRight (l : List Char) : List Char :=
  (l.reverse.dropWhile isJsWs).reverse

/-- JS `String.prototype.trim` (ASCII model). -/
def jsTrim (s : String) : String :=
  ⟨trimRight (trimLeft s.data)⟩

/-! ## Settings (`rooms.js`: `DEFAULT_SETTINGS`, `LIMITS`, `validateSettings`) -/

/-- Validated room settings, the shape of `DEFAULT_SETTINGS` in the room
module. -/
structure Settings where
  maxPlayers : ℤ
  drawTime : ℤ
  rounds : ℤ
  hints : Bool
  customWords : List String
deriving Repr, DecidableEq

def DEFAULT_SETTINGS : Settings :=
  { maxPlayers := 8, drawTime := 80, rounds := 3, hints := true, customWords := [] }

/-- Raw client settings object. `some` means the field is present with the
JS type the validator tests for (`typeof === 'number'` and so on); `none`
covers both an absent field and a field of the wrong type. -/
structure RawSettings where
  maxPlayers : Option ℚ := none
  drawTime : Option ℚ := none
  rounds : Option ℚ := none
  hints : Option Bool := none
  customWords : Option (List String) := none

/-- `Math.max(lo, Math.min(hi, Math.floor(q)))`. -/
def clampFloor (lo hi : ℤ) (q : ℚ) : ℤ :=
  max lo (min hi ⌊q⌋)

/-- The `customWords` pipeline of `validateSettings`: keep strings whose
trim is non-empty, trim and lowercase them, keep those of length at most 50,
and truncate to 50 entries. -/
def sanitizeCustomWords (ws : List String) : List String :=
  (((ws.filter (fun w => decide (0 < (jsTrim w).length))).map
      (fun w => jsLower (jsTrim w))).filter
      (fun w => decide (w.length ≤ 50))).take 50

/-- `validateSettings` from the room module. A `none` argument models the
`!settings || typeof settings !== 'object'` early return. -/
def validateSettings (raw : Option RawSettings) : Settings :=
  match raw with
  | none => DEFAULT_SETTINGS
  | some s =>
    { maxPlayers :=
        match s.maxPlayers with
        | some q => clampFloor 2 12 q
        | none => DEFAULT_SETTINGS.maxPlayers
      drawTime :=
        match s.drawTime with
        | some q => clampFloor 30 120 q
        | none => DEFAULT_SETTINGS.drawTime
      rounds :=
        match s.rounds with
        | some q => clampFloor 1 10 q
        | none => DEFAULT_SETTINGS.rounds
      hints := s.hints.getD DEFAULT_SETTINGS.hints
      customWords :=
        match s.customWords with
        | none => DEFAULT_SETTINGS.customWords
        | some ws => sanitizeCustomWords ws }

/-! ## Core data model (`Room`, `GameState`, player records) -/

inductive RoomStatus where
  | waiting
  | in_game
  | finished
deriving Repr, DecidableEq

inductive GamePhase where
  | idle
  | word_select
  | drawing
  | round_end
  | game_end
deriving Repr, DecidableEq

/-- The game object created by `initializeGameState`; `selectedWord`,
`maskedWord` and `roundStartTime` are attached later by the word engine and
the round flow, so they start out absent. -/
structure GameState where
  phase : GamePhase
  currentRound : ℤ
  totalRounds : ℤ
  drawerIndex : ℕ
  drawerId : Option String
  guessedPlayers : List String
  selectedWord : Option String := none
  maskedWord : Option String := none
  roundStartTime : Option ℤ := none
deriving Repr, DecidableEq

structure Room where
  id : String
  ownerId : String
  players : List String
  settings : Settings
  status : RoomStatus
  game : Option GameState := none
deriving Repr, DecidableEq

/-- Player record from the player module; `score` is attached dynamically by
the score engine, so it starts out absent. -/
structure PlayerRec where
  id : String
  name : String
  score : Option ℤ := none
deriving Repr, DecidableEq

/-! ## Room registry operations (`rooms.js`) -/

structure RoomOpResult where
  success : Bool
  error : Option String := none
deriving Repr, DecidableEq

/-- `createRoom`. Random unique id minting is not modelled; the fresh id is
a parameter. -/
def createRoom (playerId : String) (raw : Option RawSettings) (freshId : String) : Room :=
  { id := freshId
    ownerId := playerId
    players := [playerId]
    settings := validateSettings raw
    status := .waiting
    game := none }

/-- `joinRoom`, for a room that was already found in the registry (the
`not found` case is a lookup failure upstream of this logic). -/
def joinRoom (room : Room) (playerId : String) : Room × RoomOpResult :=
  if room.status ≠ .waiting then
    (room, ⟨false, some "Room is not accepting players"⟩)
  else if playerId ∈ room.players then
    (room, ⟨false, some "Already in this room"⟩)
  else if room.settings.maxPlayers ≤ (room.players.length : ℤ) then
    (room, ⟨false, some "Room is full"⟩)
  else
    ({ room with players := room.players ++ [playerId] }, ⟨true, none⟩)

structure LeaveResult where
  success : Bool
  deleted : Bool := false
  error : Option String := none
deriving Repr, DecidableEq

/-- `leaveRoom`: splice the player out (first occurrence), delete the room
when it empties, otherwise promote the first remaining player if the owner
left. Returns `none` for a deleted room. -/
def leaveRoom (room : Room) (playerId : String) : Option Room × LeaveResult :=
  if playerId ∉ room.players then
    (some room, ⟨false, false, some "Player not in room"⟩)
  else
    match room.players.erase playerId with
    | [] => (none, ⟨true, true, none⟩)
    | p0 :: rest =>
      (some { room with
                players := p0 :: rest
                ownerId := if room.ownerId = playerId then p0 else room.ownerId },
       ⟨true, false, none⟩)

structure SettingsResult where
  success : Bool
  settings : Option Settings := none
  error : Option String := none
deriving Repr, DecidableEq

/-- `updateRoomSettings` (owner-only, waiting-only, `maxPlayers` must not
drop below the current member count). -/
def updateRoomSettings (room : Room) (playerId : String) (raw : Option RawSettings) :
    Room × SettingsResult :=
  if room.ownerId ≠ playerId then
    (room, ⟨false, none, some "Only room owner can update settings"⟩)
  else if room.status ≠ .waiting then
    (room, ⟨false, none, some "Settings locked: game has started"⟩)
  else
    let vs := validateSettings raw
    if vs.maxPlayers < (room.players.length : ℤ) then
      (room, ⟨false, none, some "Cannot set max players below current player count"⟩)
    else
      ({ room with settings := vs }, ⟨true, some vs, none⟩)

/-! ## Game engine (`gameEngine.js`) -/

structure Validation where
  valid : Bool
  error : Option String := none
deriving Repr, DecidableEq

/-- `hasActiveGame`: a game object must be attached and the room status must
be `in_game`. -/
def hasActiveGame (room : Room) : Validation :=
  match room.game with
  | none => ⟨false, some "No active game in this room"⟩
  | some _ =>
    if room.status ≠ .in_game then ⟨false, some "Game is not active"⟩
    else ⟨true, none⟩

/-- `isCurrentDrawer`. -/
def isCurrentDrawer (room : Room) (playerId : String) : Bool :=
  match room.game with
  | none => false
  | some g => decide (g.drawerId = some playerId)

/-- `canStartGame`: owner-only, waiting-only, at least two players. -/
def canStartGame (room : Room) (playerId : String) : Validation :=
  if room.ownerId ≠ playerId then ⟨false, some "Only room owner can start the game"⟩
  else if room.status ≠ .waiting then ⟨false, some "Game already in progress or finished"⟩
  else if room.players.length < 2 then ⟨false, some "Need at least 2 players to start"⟩
  else ⟨true, none⟩

/-- `initializeGameState`: round 1, drawer index 0, first member draws. -/
def initializeGameState (room : Room) : GameState :=
  { phase := .word_select
    currentRound := 1
    totalRounds := room.settings.rounds
    drawerIndex := 0
    drawerId := room.players.get? 0
    guessedPlayers := [] }

structure StartGameResult where
  success : Bool
  error : Option String := none
deriving Repr, DecidableEq

/-- `startGame`: validate, attach a fresh game, set status `in_game`. -/
def startGame (room : Room) (playerId : String) : Room × StartGameResult :=
  let v := canStartGame room playerId
  if v.valid then
    ({ room with game := some (initializeGameState room), status := .in_game }, ⟨true, none⟩)
  else
    (room, ⟨false, v.error⟩)

/-- `resetGame`: drop the game object and go back to the waiting lobby. -/
def resetGame (room : Room) : Room :=
  { room with game := none, status := .waiting }

structure DrawerInfo where
  drawerId : Option String
  drawerIndex : ℕ
  roundIncremented : Bool
deriving Repr, DecidableEq

/-- `getNextDrawer`. The JS function reads `room.game` unconditionally; its
only caller validates first, so the game object is a parameter here. -/
def getNextDrawer (room : Room) (g : GameState) : Room × DrawerInfo :=
  if room.players.length ≤ g.drawerIndex + 1 then
    let g2 := { g with
      currentRound := g.currentRound + 1
      drawerIndex := 0
      drawerId := room.players.get? 0 }
    ({ room with game := some g2 }, ⟨g2.drawerId, 0, true⟩)
  else
    let g2 := { g with
      drawerIndex := g.drawerIndex + 1
      drawerId := room.players.get? (g.drawerIndex + 1) }
    ({ room with game := some g2 }, ⟨g2.drawerId, g.drawerIndex + 1, false⟩)

structure RoundResult where
  success : Bool
  error : Option String := none
deriving Repr, DecidableEq

/-- `startRound`: clear `guessedPlayers`, phase back to `word_select`. -/
def startRound (room : Room) : Room × RoundResult :=
  let v := hasActiveGame room
  match room.game, v.valid with
  | some g, true =>
    ({ room with game := some { g with guessedPlayers := [], phase := .word_select } },
     ⟨true, none⟩)
  | _, _ => (room, ⟨false, v.error⟩)

structure ProgressResult where
  success : Bool
  drawerInfo : Option DrawerInfo := none
  roundChanged : Bool := false
  error : Option String := none
deriving Repr, DecidableEq

/-- `progressToNextDrawer`: validate, rotate the drawer, then `startRound`. -/
def progressToNextDrawer (room : Room) : Room × ProgressResult :=
  let v := hasActiveGame room
  match room.game, v.valid with
  | some g, true =>
    let stepped := getNextDrawer room g
    let started := startRound stepped.1
    (started.1, ⟨true, some stepped.2, stepped.2.roundIncremented, none⟩)
  | _, _ => (room, ⟨false, none, false, v.error⟩)

/-! ## Word engine (`wordEngine.js`) -/

/-- The builtin word list, verbatim. Note that `telescope` and `microscope`
each occur twice (once under the medium words, once under the hard words). -/
def WORD_LIST : List String :=
  ["cat", "dog", "house", "tree", "car", "sun", "moon", "star", "book", "pen",
   "chair", "table", "door", "window", "phone", "computer", "keyboard", "mouse",
   "apple", "banana", "orange", "cake", "pizza", "hamburger", "ice cream",
   "bird", "fish", "lion", "tiger", "elephant", "giraffe", "monkey", "bear",
   "flower", "grass", "mountain", "ocean", "river", "beach", "cloud", "rain",
   "bicycle", "airplane", "train", "boat", "bus", "motorcycle", "truck",
   "hat", "shoes", "shirt", "pants", "dress", "jacket", "glasses", "watch",
   "camera", "guitar", "piano", "violin", "drum", "microphone", "speaker",
   "lighthouse", "bridge", "castle", "tower", "pyramid", "statue", "fountain",
   "butterfly", "dragonfly", "spider", "bee", "ant", "snake", "turtle", "frog",
   "cactus", "bamboo", "palm tree", "forest", "desert", "island", "volcano",
   "helicopter", "submarine", "rocket", "satellite", "telescope", "microscope",
   "backpack", "umbrella", "flashlight", "compass", "map", "globe", "flag",
   "crown", "sword", "shield", "treasure", "key", "lock", "chain", "ring",
   "kaleidoscope", "telescope", "microscope", "periscope", "binoculars",
   "architect", "engineer", "scientist", "astronaut", "pilot", "chef", "artist",
   "skyscraper", "cathedral", "monument", "amphitheater", "aqueduct", "colosseum",
   "chameleon", "peacock", "flamingo", "penguin", "ostrich", "eagle", "hawk",
   "tornado", "hurricane", "earthquake", "avalanche", "tsunami", "meteor",
   "saxophone", "trumpet", "trombone", "flute", "clarinet", "harmonica", "accordion",
   "knight", "wizard", "dragon", "unicorn", "phoenix", "mermaid", "vampire"]

/-- `getWordPool`: the builtin list, plus lowercased custom words that are
not already in the builtin list (the membership test runs against the
builtin list, before anything is appended). -/
def getWordPool (customWords : List String) : List String :=
  if 0 < customWords.length then
    WORD_LIST ++ (customWords.map jsLower).filter (fun w => decide (w ∉ WORD_LIST))
  else
    WORD_LIST

/-- The empty-pool fallback of `generateWordOptions`, applied before the
shuffle. -/
def effectiveWordPool (wordPool : List String) : List String :=
  if wordPool.isEmpty then WORD_LIST else wordPool

/-- `generateWordOptions` after the comparator shuffle: the shuffled pool is
a parameter (any permutation of the effective pool), and the first
`min 3 length` entries are returned. -/
def generateWordOptions (shuffled : List String) : List String :=
  shuffled.take (min 3 shuffled.length)

structure OptionsResult where
  success : Bool
  options : Option (List String) := none
  error : Option String := none
deriving Repr, DecidableEq

/-- `generateOptionsForDrawer`: game must be active and in `word_select`. -/
def generateOptionsForDrawer (room : Room) (shuffled : List String) : OptionsResult :=
  let v := hasActiveGame room
  match room.game, v.valid with
  | some g, true =>
    if g.phase ≠ .word_select then ⟨false, none, some "Not in word selection phase"⟩
    else ⟨true, some (generateWordOptions shuffled), none⟩
  | _, _ => ⟨false, none, v.error⟩

/-- `join(' ')` over an array of one-character strings. -/
def jsJoinSpace : List Char → List Char
  | [] => []
  | [c] => [c]
  | c :: rest => c :: ' ' :: jsJoinSpace rest

/-- `maskWord`: one underscore per non-space character, spaces kept, all
characters joined with a single space. The empty string is falsy in JS and
hits the early return. -/
def maskWord (word : String) : String :=
  if word = "" then ""
  else ⟨jsJoinSpace (word.data.map (fun c => if c = ' ' then ' ' else '_'))⟩

/-- `normalizeWord`: trim and lowercase (empty string is falsy). -/
def normalizeWord (word : String) : String :=
  if word = "" then "" else jsLower (jsTrim word)

/-- `getSelectedWord`: `null` unless a game with a truthy selected word. -/
def getSelectedWord (room : Room) : Option String :=
  match room.game with
  | none => none
  | some g =>
    match g.selectedWord with
    | none => none
    | some w => if w = "" then none else some w

/-! ## Guess engine (`guessEngine.js`) -/

/-- `normalizeGuess`: trim and lowercase (empty string is falsy). -/
def normalizeGuess (guess : String) : String :=
  if guess = "" then "" else jsLower (jsTrim guess)

structure GuessFormat where
  valid : Bool
  normalized : String
  error : Option String := none
deriving Repr, DecidableEq

/-- `validateGuessFormat`: normalized length must lie in [1, 50]. -/
def validateGuessFormat (guess : String) : GuessFormat :=
  if guess = "" then ⟨false, "", some "Guess must be a string"⟩
  else
    let normalized := normalizeGuess guess
    if normalized.length < 1 then ⟨false, "", some "Guess cannot be empty"⟩
    else if 50 < normalized.length then ⟨false, "", some "Guess cannot exceed 50 characters"⟩
    else ⟨true, normalized, none⟩

structure GuessResult where
  success : Bool
  isCorrect : Bool
  error : Option String := none
deriving Repr, DecidableEq

/-- `validateGuess`: active game, drawing phase, not the drawer, not already
a correct guesser, well-formed guess, a selected word; strict equality
against the normalized word; a correct guess appends the player to
`guessedPlayers`. The updated room is returned next to the result. -/
def validateGuess (room : Room) (playerId : String) (guess : String) :
    GuessResult × Room :=
  let v := hasActiveGame room
  match room.game, v.valid with
  | some g, true =>
    if g.phase ≠ .drawing then
      (⟨false, false, some "Guessing is only allowed during drawing phase"⟩, room)
    else if isCurrentDrawer room playerId then
      (⟨false, false, some "Drawer cannot guess"⟩, room)
    else if playerId ∈ g.guessedPlayers then
      (⟨false, false, some "You have already guessed correctly"⟩, room)
    else
      let fv := validateGuessFormat guess
      if fv.valid then
        match getSelectedWord room with
        | none => (⟨false, false, some "No word selected for this round"⟩, room)
        | some selectedWord =>
          if fv.normalized = normalizeWord selectedWord then
            let g2 := { g with guessedPlayers := g.guessedPlayers ++ [playerId] }
            (⟨true, true, none⟩, { room with game := some g2 })
          else
            (⟨true, false, none⟩, room)
      else
        (⟨false, false, fv.error⟩, room)
  | _, _ => (⟨false, false, v.error⟩, room)

/-! ## Score engine (`scoreEngine.js`) -/

def MIN_SCORE : ℤ := 10

/-- `calculateScore`: out-of-range inputs return `MIN_SCORE`; otherwise
`max(10, floor(100 + 100 * (1 - guessTime / roundTime)))`, with the drawer
variant halved and floored first. -/
def calculateScore (roundTime guessTime : ℚ) (isDrawer : Bool) : ℤ :=
  if roundTime ≤ 0 ∨ guessTime < 0 ∨ roundTime < guessTime then MIN_SCORE
  else
    let timeRatio := guessTime / roundTime
    let timeBonus := 100 * (1 - timeRatio)
    let score := 100 + timeBonus
    let floored : ℤ := if isDrawer then ⌊score * (1 / 2 : ℚ)⌋ else ⌊score⌋
    max MIN_SCORE floored

/-- Result object of `awardGuessScore`. The `score` field is `none` exactly
when the JS computation yields NaN (already-scored branch with an absent
`roundStartTime`). -/
structure AwardResult where
  success : Bool
  score : Option ℤ
  totalScore : ℤ
  error : Option String := none
deriving Repr, DecidableEq

/-- `awardGuessScore`. The per-room per-round guess-time store is abstracted
to `existingTime` (this player's recorded timestamp, if any) and the player
registry to `getPlayer`; `fallbackNow` models the `Date.now()` fallback used
when `game.roundStartTime` is falsy. The second component is the
`(playerId, newTotalScore)` pair handed to `updatePlayerScore`, when the
fresh-award path is taken. -/
def awardGuessScore (room : Room) (playerId : String) (guessTimestamp : ℤ)
    (existingTime : Option ℤ) (getPlayer : String → Option PlayerRec)
    (fallbackNow : ℤ) : AwardResult × Option (String × ℤ) :=
  let v := hasActiveGame room
  match room.game, v.valid with
  | some g, true =>
    match existingTime with
    | some t0 =>
      match getPlayer playerId with
      | none => (⟨false, some 0, 0, some "Player not found"⟩, none)
      | some p =>
        match g.roundStartTime with
        | none =>
          -- `(existingTime - game.roundStartTime) / 1000` is NaN in JS here
          (⟨true, none, p.score.getD 0, none⟩, none)
        | some s0 =>
          let roundScore := calculateScore (room.settings.drawTime : ℚ)
            (((t0 : ℚ) - (s0 : ℚ)) / 1000) (isCurrentDrawer room playerId)
          (⟨true, some roundScore, p.score.getD 0, none⟩, none)
    | none =>
      let roundStartTime : ℤ :=
        match g.roundStartTime with
        | some s0 => if s0 = 0 then fallbackNow else s0
        | none => fallbackNow
      let guessTimeSeconds : ℚ := ((guessTimestamp : ℚ) - (roundStartTime : ℚ)) / 1000
      let roundScore := calculateScore (room.settings.drawTime : ℚ) guessTimeSeconds
        (isCurrentDrawer room playerId)
      match getPlayer playerId with
      | none => (⟨false, some 0, 0, some "Player not found"⟩, none)
      | some p =>
        let newTotalScore := p.score.getD 0 + roundScore
        (⟨true, some roundScore, newTotalScore, none⟩, some (playerId, newTotalScore))
  | _, _ => (⟨false, some 0, 0, v.error⟩, none)

/-- The scoring formula exactly as the specification words it: the elapsed
ratio is clamped into [0, 1] before the bonus is computed. Written from the
spec, to be compared with `calculateScore`. -/
def specClampedScore (drawTime : ℚ) (elapsed : ℚ) : ℤ :=
  max 10 ⌊100 + 100 * (1 - min 1 (max 0 (elapsed / drawTime)))⌋

/-! ## Serialization (`serializeRoom` in `rooms.js`, `serializeGameState` in
`index.js`), modelled as a small JSON value type so that the exact keys the
code emits are part of the model. -/

inductive Json where
  | str : String → Json
  | num : ℤ → Json
  | bool : Bool → Json
  | null : Json
  | arr : List Json → Json
  | obj : List (String × Json) → Json
deriving Repr

def RoomStatus.toJs : RoomStatus → String
  | .waiting => "waiting"
  | .in_game => "in_game"
  | .finished => "finished"

def GamePhase.toJs : GamePhase → String
  | .idle => "idle"
  | .word_select => "word_select"
  | .drawing => "drawing"
  | .round_end => "round_end"
  | .game_end => "game_end"

/-- The settings object as it is embedded into serialized room data. -/
def settingsJson (s : Settings) : Json :=
  .obj [("maxPlayers", .num s.maxPlayers), ("drawTime", .num s.drawTime),
        ("rounds", .num s.rounds), ("hints", .bool s.hints),
        ("customWords", .arr (s.customWords.map .str))]

/-- One entry of the `players` array produced by `serializeRoom`. -/
def serializePlayerEntry (ownerId : String) (p : PlayerRec) : Json :=
  .obj [("id", .str p.id), ("name", .str p.name),
        ("isOwner", .bool (decide (p.id = ownerId)))]

/-- `serializeRoom`: map members through the registry, drop unresolved
entries, emit `id`, `ownerId`, `players`, `settings`, `status`. -/
def serializeRoom (room : Room) (getPlayer : String → Option PlayerRec) : Json :=
  let playerData :=
    (room.players.map getPlayer).filterMap
      (fun op => op.map (serializePlayerEntry room.ownerId))
  .obj [("id", .str room.id), ("ownerId", .str room.ownerId),
        ("players", .arr playerData), ("settings", settingsJson room.settings),
        ("status", .str room.status.toJs)]

/-- `serializeGameState` from `index.js`; `selectedWord` is deliberately
left out by the code. An absent or falsy `maskedWord` serializes as null. -/
def serializeGameState (room : Room) : Option Json :=
  room.game.map (fun g =>
    .obj [("phase", .str g.phase.toJs), ("currentRound", .num g.currentRound),
          ("totalRounds", .num g.totalRounds),
          ("drawerId", match g.drawerId with | some d => .str d | none => .null),
          ("drawerIndex", .num (g.drawerIndex : ℤ)),
          ("guessedPlayers", .arr (g.guessedPlayers.map .str)),
          ("maskedWord",
            match g.maskedWord with
            | some m => if m = "" then .null else .str m
            | none => .null)])

/-- Top-level keys of a JSON object. -/
def Json.topKeys : Json → List String
  | .obj kvs => kvs.map Prod.fst
  | _ => []

mutual

/-- Every object key occurring anywhere inside a JSON value. -/
def Json.allKeys : Json → List String
  | .arr js => Json.allKeysArr js
  | .obj kvs => Json.allKeysObj kvs
  | _ => []

def Json.allKeysArr : List Json → List String
  | [] => []
  | j :: rest => j.allKeys ++ Json.allKeysArr rest

def Json.allKeysObj : List (String × Json) → List String
  | [] => []
  | (k, v) :: rest => k :: (v.allKeys ++ Json.allKeysObj rest)

end

/-- The room serialization shape exactly as the specification words it:
`{code, ownerId, players:[{id, name, isOwner, score}], settings, status}`.
Written from the spec, to be compared with `serializeRoom`. -/
def specSerializeRoom (room : Room) (getPlayer : String → Option PlayerRec) : Json :=
  let playerData :=
    (room.players.map getPlayer).filterMap
      (fun op => op.map (fun p =>
        Json.obj [("id", .str p.id), ("name", .str p.name),
                  ("isOwner", .bool (decide (p.id = room.ownerId))),
                  ("score", .num (p.score.getD 0))]))
  .obj [("code", .str room.id), ("ownerId", .str room.ownerId),
        ("players", .arr playerData), ("settings", settingsJson room.settings),
        ("status", .str room.status.toJs)]

/-! ## The player module's export table and the handlers that call it
(`players.js` `module.exports`, `index.js` `start_game` / `play_again`). -/

/-- The exact export list of the player module. Neither `resetPlayerScores`
nor `updatePlayerScore` is among them. -/
def playersModuleExports : List String :=
  ["createPlayer", "updatePlayerName", "updatePlayerRoom", "removePlayer",
   "getPlayer", "getPlayerById", "getAllPlayers", "getPlayerCount"]

/-- Calling `playerManager.<name>(...)`: a missing export is `undefined`,
and calling it raises a TypeError. -/
def callPlayerManagerFn (name : String) : Except String Unit :=
  if name ∈ playersModuleExports then .ok ()
  else .error ("TypeError: playerManager." ++ name ++ " is not a function")

/-- The `start_game` socket handler up to (and including) its score-reset
step: run `startGame`; on success call
`playerManager.resetPlayerScores(room.players)`. -/
def startGameHandler (room : Room) (playerId : String) :
    Except String (Room × StartGameResult) :=
  let stepped := startGame room playerId
  if stepped.2.success then do
    let _ ← callPlayerManagerFn "resetPlayerScores"
    pure stepped
  else
    pure stepped

/-- The `play_again` socket handler up to (and including) its score-reset
step: owner-only, finished-only; run `resetGame`; then call
`playerManager.resetPlayerScores(room.players)`. -/
def playAgainHandler (room : Room) (playerId : String) : Except String Room :=
  if room.ownerId ≠ playerId then .ok room
  else if room.status ≠ .finished then .ok room
  else do
    let room2 := resetGame room
    let _ ← callPlayerManagerFn "resetPlayerScores"
    pure room2

/-- The `guess` socket handler up to scoring: `validateGuess`, and only on a
successful, correct result move on to `awardGuessScore`. The returned triple
is the room, the award step's output (when reached), and the error sent
back to the guesser (when validation failed). -/
def guessHandler (room : Room) (playerId : String) (guess : String)
    (guessTimestamp : ℤ) (existingTime : Option ℤ)
    (getPlayer : String → Option PlayerRec) (fallbackNow : ℤ) :
    Room × Option (AwardResult × Option (String × ℤ)) × Option String :=
  let validated := validateGuess room playerId guess
  if validated.1.success then
    if validated.1.isCorrect then
      (validated.2,
       some (awardGuessScore validated.2 playerId guessTimestamp existingTime
         getPlayer fallbackNow), none)
    else
      (validated.2, none, none)
  else
    (validated.2, none, validated.1.error)

/-! ## Helper lemmas about the ASCII string primitives -/

theorem toNat_lowerChar (c : Char) :
    (lowerChar c).toNat = if 65 ≤ c.toNat ∧ c.toNat ≤ 90 then c.toNat + 32 else c.toNat := by
  unfold lowerChar
  split
  · rename_i h
    have hv : (c.toNat + 32).isValidChar := Or.inl (by omega)
    show (Char.ofNat (c.toNat + 32)).toNat = c.toNat + 32
    rw [Char.ofNat, dif_pos hv]
    rfl
  · rfl

theorem char_eq_of_toNat_eq {c d : Char} (h : c.toNat = d.toNat) : c = d := by
  rw [← Char.ofNat_toNat c, h, Char.ofNat_toNat]

theorem lowerChar_idem (c : Char) : lowerChar (lowerChar c) = lowerChar c := by
  by_cases h : 65 ≤ c.toNat ∧ c.toNat ≤ 90
  · have h1 : (lowerChar c).toNat = c.toNat + 32 := by rw [toNat_lowerChar, if_pos h]
    have h2 : ¬(65 ≤ (lowerChar c).toNat ∧ (lowerChar c).toNat ≤ 90) := by omega
    apply char_eq_of_toNat_eq
    rw [toNat_lowerChar, if_neg h2]
  · have h1 : lowerChar c = c := by unfold lowerChar; rw [if_neg h]
    rw [h1, h1]

theorem isJsWs_lowerChar (c : Char) : isJsWs (lowerChar c) = isJsWs c := by
  have ht := toNat_lowerChar c
  by_cases h : 65 ≤ c.toNat ∧ c.toNat ≤ 90
  · rw [if_pos h] at ht
    simp only [isJsWs, ht, decide_eq_decide, List.mem_cons, List.not_mem_nil, or_false]
    omega
  · rw [if_neg h] at ht
    simp only [isJsWs, ht]

theorem isJsWs_comp_lowerChar : isJsWs ∘ lowerChar = isJsWs :=
  funext isJsWs_lowerChar

theorem jsLower_idem (s : String) : jsLower (jsLower s) = jsLower s := by
  apply String.ext
  show (s.data.map lowerChar).map lowerChar = s.data.map lowerChar
  rw [List.map_map]
  exact List.map_congr_left (fun c _ => lowerChar_idem c)

theorem trimLeft_map_lowerChar (l : List Char) :
    trimLeft (l.map lowerChar) = (trimLeft l).map lowerChar := by
  unfold trimLeft
  rw [List.dropWhile_map, isJsWs_comp_lowerChar]

theorem trimRight_map_lowerChar (l : List Char) :
    trimRight (l.map lowerChar) = (trimRight l).map lowerChar := by
  unfold trimRight
  rw [← List.map_reverse, List.dropWhile_map, isJsWs_comp_lowerChar, List.map_reverse]

theorem jsTrim_jsLower (s : String) : jsTrim (jsLower s) = jsLower (jsTrim s) := by
  apply String.ext
  show trimRight (trimLeft (s.data.map lowerChar)) = (trimRight (trimLeft s.data)).map lowerChar
  rw [trimLeft_map_lowerChar, trimRight_map_lowerChar]

theorem dropWhile_idem (p : α → Bool) (l : List α) :
    (l.dropWhile p).dropWhile p = l.dropWhile p := by
  induction l with
  | nil => rfl
  | cons a t ih =>
    by_cases h : p a
    · rw [List.dropWhile_cons_of_pos h, ih]
    · rw [List.dropWhile_cons_of_neg h, List.dropWhile_cons_of_neg h]

theorem dropWhile_prefix_of_self {p : α → Bool} {x y : List α}
    (hx : x.dropWhile p = x) (hy : y <+: x) : y.dropWhile p = y := by
  match y, hy with
  | [], _ => rfl
  | a :: t, hy =>
    obtain ⟨rest, hrest⟩ := hy
    have hax : x = a :: (t ++ rest) := hrest.symm
    have hna : ¬ p a := by
      intro hpa
      rw [hax, List.dropWhile_cons_of_pos hpa] at hx
      have hlen := congrArg List.length hx
      have hle := ((List.dropWhile_sublist p).length_le : (List.dropWhile p (t ++ rest)).length ≤ (t ++ rest).length)
      simp only [List.length_cons] at hlen
      omega
    rw [List.dropWhile_cons_of_neg hna]

theorem trimRight_prefix_self (x : List Char) : trimRight x <+: x := by
  unfold trimRight
  have h1 : x.reverse.dropWhile isJsWs <:+ x.reverse := List.dropWhile_suffix _
  have h2 := List.reverse_prefix.mpr h1
  simpa using h2

theorem trimLeft_trimRight_of_trimmed {x : List Char} (hx : trimLeft x = x) :
    trimLeft (trimRight x) = trimRight x :=
  dropWhile_prefix_of_self hx (trimRight_prefix_self x)

theorem trimRight_idem (x : List Char) : trimRight (trimRight x) = trimRight x := by
  unfold trimRight
  rw [List.reverse_reverse, dropWhile_idem]

theorem jsTrim_idem (s : String) : jsTrim (jsTrim s) = jsTrim s := by
  apply String.ext
  show trimRight (trimLeft (trimRight (trimLeft s.data))) = trimRight (trimLeft s.data)
  have h1 : trimLeft (trimLeft s.data) = trimLeft s.data := dropWhile_idem _ _
  rw [trimLeft_trimRight_of_trimmed h1, trimRight_idem]

theorem jsLower_ne_empty {s : String} (h : s ≠ "") : jsLower s ≠ "" := by
  intro hc
  apply h
  apply String.ext
  have : (jsLower s).data = [] := by rw [hc]
  have hd : s.data.map lowerChar = [] := this
  have := List.map_eq_nil_iff.mp hd
  rw [this]

theorem jsJoinSpace_length {l : List Char} (h : l ≠ []) :
    (jsJoinSpace l).length = 2 * l.length - 1 := by
  induction l with
  | nil => exact absurd rfl h
  | cons a t ih =>
    cases t with
    | nil => rfl
    | cons b t2 =>
      have := ih (by simp)
      simp only [jsJoinSpace, List.length_cons] at this ⊢
      omega

theorem jsJoinSpace_count_ne_space {a : Char} (ha : a ≠ ' ') (l : List Char) :
    (jsJoinSpace l).count a = l.count a := by
  induction l with
  | nil => rfl
  | cons c t ih =>
    cases t with
    | nil => rfl
    | cons b t2 =>
      have hsp : (' ' == a) = false := beq_eq_false_iff_ne.mpr (fun hc => ha hc.symm)
      show List.count a (c :: ' ' :: jsJoinSpace (b :: t2)) = List.count a (c :: b :: t2)
      simp only [List.count_cons, ih, hsp]
      simp

theorem jsJoinSpace_count_space {l : List Char} (h : l ≠ []) :
    (jsJoinSpace l).count ' ' = l.count ' ' + (l.length - 1) := by
  induction l with
  | nil => exact absurd rfl h
  | cons c t ih =>
    cases t with
    | nil => rfl
    | cons b t2 =>
      have iht := ih (by simp)
      show List.count ' ' (c :: ' ' :: jsJoinSpace (b :: t2))
          = List.count ' ' (c :: b :: t2) + ((b :: t2).length + 1 - 1)
      simp only [List.count_cons, iht, List.length_cons]
      simp
      omega

/-! ## Claim theorems -/

theorem sanitizeCustomWords_props (ws : List String) :
    (sanitizeCustomWords ws).length ≤ 50
    ∧ ∀ w ∈ sanitizeCustomWords ws,
        jsTrim w = w ∧ jsLower w = w ∧ w ≠ "" ∧ w.length ≤ 50 := by
  constructor
  · unfold sanitizeCustomWords
    rw [List.length_take]
    exact min_le_left _ _
  · intro w hw
    unfold sanitizeCustomWords at hw
    have hw1 := List.mem_of_mem_take hw
    rw [List.mem_filter] at hw1
    obtain ⟨hw2, hlen⟩ := hw1
    rw [List.mem_map] at hw2
    obtain ⟨v, hv, rfl⟩ := hw2
    rw [List.mem_filter] at hv
    obtain ⟨-, hvne⟩ := hv
    have hpos : 0 < (jsTrim v).length := of_decide_eq_true hvne
    have hvne2 : jsTrim v ≠ "" := by
      intro hc
      rw [hc] at hpos
      simp at hpos
    refine ⟨?_, jsLower_idem _, jsLower_ne_empty hvne2, by simpa using hlen⟩
    rw [jsTrim_jsLower, jsTrim_idem]

/-- C9 (amended): the validated `customWords` list has at most 50 entries and
every entry is trimmed, lowercase, non-empty and at most 50 characters long;
the deduplication the claim asserts does not happen (see the
counterexample). -/
theorem C9_customWords_validated (raw : Option RawSettings) :
    (validateSettings raw).customWords.length ≤ 50
    ∧ ∀ w ∈ (validateSettings raw).customWords,
        jsTrim w = w ∧ jsLower w = w ∧ w ≠ "" ∧ w.length ≤ 50 := by
  match raw with
  | none =>
    refine ⟨by simp [validateSettings, DEFAULT_SETTINGS], ?_⟩
    intro w hw
    simp [validateSettings, DEFAULT_SETTINGS] at hw
  | some s =>
    match hcw : s.customWords with
    | none =>
      have hs : (validateSettings (some s)).customWords = [] := by
        simp [validateSettings, hcw, DEFAULT_SETTINGS]
      rw [hs]
      exact ⟨by simp, by intro w hw; simp at hw⟩
    | some ws =>
      have hs : (validateSettings (some s)).customWords = sanitizeCustomWords ws := by
        simp [validateSettings, hcw]
      rw [hs]
      exact sanitizeCustomWords_props ws

/-- Raw settings carrying a duplicated custom word. -/
def c9Raw : RawSettings :=
  { customWords := some ["cat", "cat"] }

/-- C9 counterexample: `validateSettings` keeps duplicate custom words, so
the validated list is not duplicate-free. -/
theorem C9_customWords_counterexample :
    (validateSettings (some c9Raw)).customWords = ["cat", "cat"]
    ∧ ¬ (validateSettings (some c9Raw)).customWords.Nodup := by
  constructor <;> decide

/-- C9 witness: the amended theorem applied to the duplicated-input settings
and its first entry. -/
theorem C9_customWords_validated_witness :
    ("cat" ∈ (validateSettings (some c9Raw)).customWords)
    ∧ (jsTrim "cat" = "cat" ∧ jsLower "cat" = "cat" ∧ "cat" ≠ "" ∧ "cat".length ≤ 50) :=
  ⟨by decide, (C9_customWords_validated (some c9Raw)).2 "cat" (by decide)⟩

/-- C7 (amended): for a non-empty word the mask has one underscore per
non-space character, keeps every space of the word and adds one join space
between each pair of adjacent characters (so its length is `2n - 1`); a
space inside the word therefore shows up as three consecutive spaces, not
two. -/
theorem C7_maskWord_shape (w : String) (hw : w ≠ "") :
    (maskWord w).data.count '_' = w.data.countP (fun c => decide (c ≠ ' '))
    ∧ (maskWord w).data.count ' ' = w.data.count ' ' + (w.length - 1)
    ∧ (maskWord w).length = 2 * w.length - 1 := by
  have hdata : w.data ≠ [] := by
    intro hc
    exact hw (String.ext hc)
  have hmap : w.data.map (fun c => if c = ' ' then ' ' else '_') ≠ [] := by
    simpa using hdata
  have hmw : (maskWord w).data
      = jsJoinSpace (w.data.map (fun c => if c = ' ' then ' ' else '_')) := by
    unfold maskWord
    rw [if_neg hw]
  refine ⟨?_, ?_, ?_⟩
  · rw [hmw, jsJoinSpace_count_ne_space (by decide)]
    rw [List.count_eq_countP, List.countP_map]
    apply List.countP_congr
    intro c _
    by_cases hc : c = ' ' <;> simp [hc, Function.comp]
  · rw [hmw, jsJoinSpace_count_space hmap]
    rw [List.count_eq_countP, List.countP_map, List.length_map]
    have hcong : List.countP ((fun x => x == ' ') ∘ fun c => if c = ' ' then ' ' else '_') w.data
        = List.countP (fun x => x == ' ') w.data := by
      apply List.countP_congr
      intro c _
      by_cases hc : c = ' ' <;> simp [hc, Function.comp]
    rw [hcong, ← List.count_eq_countP]
    rfl
  · show (maskWord w).data.length = 2 * w.data.length - 1
    rw [hmw, jsJoinSpace_length hmap, List.length_map]

/-- C7 witness: the shape theorem applied to the spec's own example word. -/
theorem C7_maskWord_shape_witness :
    (maskWord "ice cream").data.count '_' = 8
    ∧ (maskWord "ice cream").data.count ' ' = 9
    ∧ (maskWord "ice cream").length = 17 := by
  obtain ⟨h1, h2, h3⟩ := C7_maskWord_shape "ice cream" (by decide)
  refine ⟨?_, ?_, ?_⟩
  · rw [h1]; decide
  · rw [h2]; decide
  · rw [h3]; decide

/-- C7 counterexample: `maskWord "ice cream"` has three spaces at the word
break, not the two spaces the claim's example shows. -/
theorem C7_maskWord_counterexample :
    maskWord "ice cream" = "_ _ _   _ _ _ _ _"
    ∧ maskWord "ice cream" ≠ "_ _ _  _ _ _ _ _" := by
  constructor <;> decide

/-- A concrete two-player room in which `start_game` is legitimate. -/
def c1Room : Room :=
  { id := "ROOM01", ownerId := "p1", players := ["p1", "p2"],
    settings := DEFAULT_SETTINGS, status := .waiting, game := none }

/-- C1: the player module exports no `resetPlayerScores`, so the score-reset
step of the `start_game` handler and of the `play_again` handler raises a
TypeError instead of resetting scores, already on a perfectly ordinary
room. -/
theorem C1_resetPlayerScores_missing :
    "resetPlayerScores" ∉ playersModuleExports
    ∧ startGameHandler c1Room "p1"
        = .error "TypeError: playerManager.resetPlayerScores is not a function"
    ∧ playAgainHandler { c1Room with status := .finished } "p1"
        = .error "TypeError: playerManager.resetPlayerScores is not a function" := by
  refine ⟨by decide, ?_, ?_⟩ <;> rfl


/-- The room-capacity invariant of C10: membership never exceeds
`settings.maxPlayers`. -/
def roomCapacityInv (room : Room) : Prop :=
  (room.players.length : ℤ) ≤ room.settings.maxPlayers

instance (room : Room) : Decidable (roomCapacityInv room) := by
  unfold roomCapacityInv
  infer_instance

theorem two_le_validateSettings_maxPlayers (raw : Option RawSettings) :
    2 ≤ (validateSettings raw).maxPlayers := by
  match raw with
  | none => decide
  | some s =>
    rcases hmp : s.maxPlayers with _ | q
    · have h8 : (validateSettings (some s)).maxPlayers = 8 := by
        simp [validateSettings, hmp, DEFAULT_SETTINGS]
      rw [h8]
      decide
    · have hc : (validateSettings (some s)).maxPlayers = clampFloor 2 12 q := by
        simp [validateSettings, hmp]
      rw [hc]
      exact le_max_left _ _

/-- The surviving room shape of a non-deleting `leaveRoom`. -/
def leaveRoomSurvivor (room : Room) (playerId p0 : String) (rest : List String) : Room :=
  { room with players := p0 :: rest, ownerId := if room.ownerId = playerId then p0 else room.ownerId }

/-- Case analysis on a non-deleting `leaveRoom` call. -/
theorem leaveRoom_some {room : Room} {playerId : String} {room2 : Room}
    (h : (leaveRoom room playerId).1 = some room2) :
    room2 = room
    ∨ ∃ p0 rest, room.players.erase playerId = p0 :: rest
        ∧ room2 = leaveRoomSurvivor room playerId p0 rest := by
  unfold leaveRoom at h
  by_cases h1 : playerId ∉ room.players
  · rw [if_pos h1] at h
    left
    injection h with h
    exact h.symm
  · rw [if_neg h1] at h
    rcases herase : room.players.erase playerId with _ | ⟨p0, rest⟩
    · rw [herase] at h
      exact Option.noConfusion h
    · rw [herase] at h
      right
      refine ⟨p0, rest, rfl, ?_⟩
      injection h with h
      rw [← h]
      rfl

/-- C10: the capacity invariant is established by `createRoom` (one member,
`maxPlayers` at least 2) and preserved by `joinRoom` (rejects when full),
`updateRoomSettings` (rejects a `maxPlayers` below the member count) and
`leaveRoom` (only shrinks membership). -/
theorem C10_capacity_invariant :
    (∀ playerId raw freshId, roomCapacityInv (createRoom playerId raw freshId))
    ∧ (∀ room playerId, roomCapacityInv room → roomCapacityInv (joinRoom room playerId).1)
    ∧ (∀ room playerId raw, roomCapacityInv room →
        roomCapacityInv (updateRoomSettings room playerId raw).1)
    ∧ (∀ room playerId room2, (leaveRoom room playerId).1 = some room2 →
        roomCapacityInv room → roomCapacityInv room2) := by
  refine ⟨?_, ?_, ?_, ?_⟩
  · intro playerId raw freshId
    have h2 := two_le_validateSettings_maxPlayers raw
    show ((1 : ℕ) : ℤ) ≤ (validateSettings raw).maxPlayers
    omega
  · intro room playerId hinv
    unfold joinRoom
    split_ifs with h1 h2 h3
    · exact hinv
    · exact hinv
    · exact hinv
    · show ((room.players ++ [playerId]).length : ℤ) ≤ room.settings.maxPlayers
      rw [List.length_append, List.length_singleton]
      push_cast
      push_neg at h3
      omega
  · intro room playerId raw hinv
    unfold updateRoomSettings
    dsimp only
    split_ifs with h1 h2 h3
    · exact hinv
    · exact hinv
    · exact hinv
    · show (room.players.length : ℤ) ≤ (validateSettings raw).maxPlayers
      push_neg at h3
      exact h3
  · intro room playerId room2 hleave hinv
    rcases leaveRoom_some hleave with h | ⟨p0, rest, herase, h⟩
    · rw [h]
      exact hinv
    · have hsub : (room.players.erase playerId).length ≤ room.players.length :=
        (room.players.erase_sublist playerId).length_le
      rw [herase] at hsub
      rw [h]
      show (((p0 :: rest).length : ℕ) : ℤ) ≤ room.settings.maxPlayers
      unfold roomCapacityInv at hinv
      omega

/-- Room produced by `"p2"` leaving `c1Room`. -/
def c10LeftRoom : Room :=
  { c1Room with players := ["p1"] }

/-- C10 witness: the invariant theorem applied to concrete rooms. -/
theorem C10_capacity_invariant_witness :
    roomCapacityInv (createRoom "p1" none "ROOM01")
    ∧ roomCapacityInv (joinRoom c1Room "p3").1
    ∧ roomCapacityInv (updateRoomSettings c1Room "p1" none).1
    ∧ roomCapacityInv c10LeftRoom :=
  ⟨C10_capacity_invariant.1 "p1" none "ROOM01",
   C10_capacity_invariant.2.1 c1Room "p3" (by decide),
   C10_capacity_invariant.2.2.1 c1Room "p1" none (by decide),
   C10_capacity_invariant.2.2.2 c1Room "p2" c10LeftRoom (by decide) (by decide)⟩

/-- The drawer-consistency invariant of C4: whenever a game is attached,
`drawerId` is the member at position `drawerIndex`. -/
def drawerInv (room : Room) : Prop :=
  match room.game with
  | none => True
  | some g => g.drawerId = room.players.get? g.drawerIndex

instance (room : Room) : Decidable (drawerInv room) := by
  unfold drawerInv
  rcases room.game with _ | g <;> infer_instance

/-- C4 (amended): the drawer invariant is established by `startGame` and
preserved by `startRound` and `progressToNextDrawer`; `leaveRoom`, however,
does not touch the game object at all while it rewrites the member list, so
it does not preserve the invariant (see the counterexample). -/
theorem C4_drawer_invariant :
    (∀ room playerId, drawerInv room → drawerInv (startGame room playerId).1)
    ∧ (∀ room, drawerInv room → drawerInv (startRound room).1)
    ∧ (∀ room, drawerInv room → drawerInv (progressToNextDrawer room).1)
    ∧ (∀ room playerId room2, (leaveRoom room playerId).1 = some room2 →
        room2.game = room.game ∧ room2.settings = room.settings) := by
  refine ⟨?_, ?_, ?_, ?_⟩
  · intro room playerId hinv
    unfold startGame
    dsimp only
    split_ifs with h1
    · show drawerInv { room with game := some (initializeGameState room), status := .in_game }
      unfold drawerInv initializeGameState
      rfl
    · exact hinv
  · intro room hinv
    unfold startRound
    rcases hg : room.game with _ | g
    · simpa [hg] using hinv
    · rcases hv : (hasActiveGame room).valid with _ | _
      · simpa [hg, hv] using hinv
      · have hpres : drawerInv { room with game := some { g with guessedPlayers := [], phase := GamePhase.word_select } } := by
          unfold drawerInv
          unfold drawerInv at hinv
          rw [hg] at hinv
          exact hinv
        simpa [hg, hv] using hpres
  · intro room hinv
    unfold progressToNextDrawer
    rcases hg : room.game with _ | g
    · simpa [hg] using hinv
    · rcases hv : (hasActiveGame room).valid with _ | _
      · simpa [hg, hv] using hinv
      · have hstep : drawerInv (getNextDrawer room g).1 := by
          by_cases h : room.players.length ≤ g.drawerIndex + 1 <;>
            simp [getNextDrawer, h, drawerInv]
        have hfinal : drawerInv (startRound (getNextDrawer room g).1).1 := by
          unfold startRound
          rcases hg2 : (getNextDrawer room g).1.game with _ | g2
          · simpa [hg2] using hstep
          · rcases hv2 : (hasActiveGame (getNextDrawer room g).1).valid with _ | _
            · simpa [hg2, hv2] using hstep
            · have hpres : drawerInv { (getNextDrawer room g).1 with game := some { g2 with guessedPlayers := [], phase := GamePhase.word_select } } := by
                unfold drawerInv
                unfold drawerInv at hstep
                rw [hg2] at hstep
                exact hstep
              simpa [hg2, hv2] using hpres
        simpa [hg, hv] using hfinal
  · intro room playerId room2 hleave
    rcases leaveRoom_some hleave with h | ⟨p0, rest, herase, h⟩
    · rw [h]
      exact ⟨rfl, rfl⟩
    · rw [h]
      exact ⟨rfl, rfl⟩

/-- Mid-game three-member room, drawer at index 1. -/
def c4Game : GameState :=
  { phase := .drawing, currentRound := 1, totalRounds := 3,
    drawerIndex := 1, drawerId := some "b", guessedPlayers := [] }

def c4Room : Room :=
  { id := "ROOM02", ownerId := "a", players := ["a", "b", "c"],
    settings := DEFAULT_SETTINGS, status := .in_game, game := some c4Game }

/-- The room `leaveRoom` produces when `"a"` leaves `c4Room`. -/
def c4RoomAfter : Room :=
  { id := "ROOM02", ownerId := "b", players := ["b", "c"],
    settings := DEFAULT_SETTINGS, status := .in_game, game := some c4Game }

/-- C4 counterexample: the invariant holds before `"a"` (a member listed
before the drawer) leaves, and is broken afterwards: `drawerId` still names
`"b"` while position 1 now holds `"c"`. -/
theorem C4_leaveRoom_counterexample :
    drawerInv c4Room
    ∧ (leaveRoom c4Room "a").1 = some c4RoomAfter
    ∧ ¬ drawerInv c4RoomAfter := by
  refine ⟨by decide, by decide, by decide⟩

/-- C4 witness: the amended theorem applied to concrete rooms. -/
theorem C4_drawer_invariant_witness :
    drawerInv (startGame c1Room "p1").1
    ∧ drawerInv (startRound c4Room).1
    ∧ drawerInv (progressToNextDrawer c4Room).1
    ∧ (c4RoomAfter.game = c4Room.game ∧ c4RoomAfter.settings = c4Room.settings) :=
  ⟨C4_drawer_invariant.1 c1Room "p1" (by decide),
   C4_drawer_invariant.2.1 c4Room (by decide),
   C4_drawer_invariant.2.2.1 c4Room (by decide),
   C4_drawer_invariant.2.2.2 c4Room "a" c4RoomAfter (by decide)⟩

/-- C5: `progressToNextDrawer` on an active game advances `drawerIndex` by
one, wrapping to 0 with a round increment (reported as `roundChanged`) when
the new index reaches the player count; `drawerId` becomes the member at the
new index; `startRound` then empties `guessedPlayers` and sets the phase to
`word_select`. -/
theorem C5_progressToNextDrawer (room : Room) (g : GameState)
    (hg : room.game = some g) (hs : room.status = .in_game)
    (hidx : g.drawerIndex < room.players.length) :
    (progressToNextDrawer room).2.success = true
    ∧ (progressToNextDrawer room).2.roundChanged
        = decide (g.drawerIndex + 1 = room.players.length)
    ∧ ∃ g2, (progressToNextDrawer room).1.game = some g2
        ∧ g2.drawerIndex
            = (if g.drawerIndex + 1 = room.players.length then 0 else g.drawerIndex + 1)
        ∧ g2.drawerId = room.players.get? g2.drawerIndex
        ∧ g2.currentRound
            = (if g.drawerIndex + 1 = room.players.length then g.currentRound + 1
               else g.currentRound)
        ∧ g2.guessedPlayers = []
        ∧ g2.phase = .word_select
        ∧ g2.totalRounds = g.totalRounds := by
  have hv : hasActiveGame room = ⟨true, none⟩ := by
    unfold hasActiveGame
    rw [hg]
    simp [hs]
  have hcond : (room.players.length ≤ g.drawerIndex + 1)
      ↔ (g.drawerIndex + 1 = room.players.length) := by omega
  have hstatus : ∀ g2 : GameState,
      hasActiveGame { room with game := some g2 } = ⟨true, none⟩ := by
    intro g2
    unfold hasActiveGame
    simp [hs]
  unfold progressToNextDrawer
  simp only [hg, hv]
  by_cases hwrap : room.players.length ≤ g.drawerIndex + 1
  · have heq := hcond.mp hwrap
    have hstep : getNextDrawer room g
        = ({ room with game := some { g with currentRound := g.currentRound + 1, drawerIndex := 0, drawerId := room.players.get? 0 } }, ⟨room.players.get? 0, 0, true⟩) := by
      unfold getNextDrawer
      rw [if_pos hwrap]
    have hstart : startRound { room with game := some { g with currentRound := g.currentRound + 1, drawerIndex := 0, drawerId := room.players.get? 0 } }
        = ({ room with game := some { g with currentRound := g.currentRound + 1, drawerIndex := 0, drawerId := room.players.get? 0, guessedPlayers := [], phase := GamePhase.word_select } }, ⟨true, none⟩) := by
      unfold startRound
      rw [hstatus]
    rw [hstep]
    dsimp only
    rw [hstart]
    refine ⟨by trivial, by simp [heq], ?_⟩
    exact ⟨_, by trivial, by simp [heq], by trivial, by simp [heq], by trivial, by trivial, by trivial⟩
  · have hne : ¬ (g.drawerIndex + 1 = room.players.length) := fun hc => hwrap (hcond.mpr hc)
    have hstep : getNextDrawer room g
        = ({ room with game := some { g with drawerIndex := g.drawerIndex + 1, drawerId := room.players.get? (g.drawerIndex + 1) } }, ⟨room.players.get? (g.drawerIndex + 1), g.drawerIndex + 1, false⟩) := by
      unfold getNextDrawer
      rw [if_neg hwrap]
    have hstart : startRound { room with game := some { g with drawerIndex := g.drawerIndex + 1, drawerId := room.players.get? (g.drawerIndex + 1) } }
        = ({ room with game := some { g with drawerIndex := g.drawerIndex + 1, drawerId := room.players.get? (g.drawerIndex + 1), guessedPlayers := [], phase := GamePhase.word_select } }, ⟨true, none⟩) := by
      unfold startRound
      rw [hstatus]
    rw [hstep]
    dsimp only
    rw [hstart]
    refine ⟨by trivial, by simp [hne], ?_⟩
    exact ⟨_, by trivial, by simp [hne], by trivial, by simp [hne], by trivial, by trivial, by trivial⟩

/-- Two-member in-game room in `word_select`, drawer at index 0. -/
def c5Game : GameState :=
  { phase := .word_select, currentRound := 1, totalRounds := 3,
    drawerIndex := 0, drawerId := some "p1", guessedPlayers := ["p2"] }

def c5Room : Room :=
  { id := "ROOM04", ownerId := "p1", players := ["p1", "p2"],
    settings := DEFAULT_SETTINGS, status := .in_game, game := some c5Game }

/-- C5 witness: the rotation theorem applied to a concrete two-member
room. -/
theorem C5_progressToNextDrawer_witness :
    (progressToNextDrawer c5Room).2.success = true
    ∧ (progressToNextDrawer c5Room).2.roundChanged
        = decide (c5Game.drawerIndex + 1 = c5Room.players.length)
    ∧ ∃ g2, (progressToNextDrawer c5Room).1.game = some g2
        ∧ g2.drawerIndex
            = (if c5Game.drawerIndex + 1 = c5Room.players.length then 0
               else c5Game.drawerIndex + 1)
        ∧ g2.drawerId = c5Room.players.get? g2.drawerIndex
        ∧ g2.currentRound
            = (if c5Game.drawerIndex + 1 = c5Room.players.length then c5Game.currentRound + 1
               else c5Game.currentRound)
        ∧ g2.guessedPlayers = []
        ∧ g2.phase = .word_select
        ∧ g2.totalRounds = c5Game.totalRounds :=
  C5_progressToNextDrawer c5Room c5Game rfl rfl (by decide)

/-- C6: a guesser already listed in `guessedPlayers` has a second guess in
the same round rejected with the already-guessed error, and the failing call
leaves the room (players, scores, game state) untouched; the handler short
circuits before any scoring. -/
theorem C6_already_guessed (room : Room) (g : GameState) (playerId guess : String)
    (ts fallbackNow : ℤ) (existingTime : Option ℤ) (getP : String → Option PlayerRec)
    (hg : room.game = some g) (hs : room.status = .in_game)
    (hph : g.phase = .drawing) (hnd : isCurrentDrawer room playerId = false)
    (hmem : playerId ∈ g.guessedPlayers) :
    (validateGuess room playerId guess).1
      = ⟨false, false, some "You have already guessed correctly"⟩
    ∧ (validateGuess room playerId guess).2 = room
    ∧ guessHandler room playerId guess ts existingTime getP fallbackNow
      = (room, none, some "You have already guessed correctly") := by
  have hv : hasActiveGame room = ⟨true, none⟩ := by
    unfold hasActiveGame
    rw [hg]
    simp [hs]
  have hvg : validateGuess room playerId guess
      = (⟨false, false, some "You have already guessed correctly"⟩, room) := by
    unfold validateGuess
    simp only [hg, hv]
    simp [hph, hnd, hmem]
  refine ⟨by rw [hvg], by rw [hvg], ?_⟩
  unfold guessHandler
  rw [hvg]
  simp

/-- In-game room in drawing phase where `"p2"` has already guessed the
word. -/
def c6Game : GameState :=
  { phase := .drawing, currentRound := 1, totalRounds := 3,
    drawerIndex := 0, drawerId := some "p1", guessedPlayers := ["p2"],
    selectedWord := some "cat", maskedWord := some "_ _ _",
    roundStartTime := some 1000 }

def c6Room : Room :=
  { id := "ROOM05", ownerId := "p1", players := ["p1", "p2", "p3"],
    settings := DEFAULT_SETTINGS, status := .in_game, game := some c6Game }

/-- C6 witness: the already-guessed theorem applied to a concrete second
guess by `"p2"`. -/
theorem C6_already_guessed_witness :
    (validateGuess c6Room "p2" "cat").1
      = ⟨false, false, some "You have already guessed correctly"⟩
    ∧ (validateGuess c6Room "p2" "cat").2 = c6Room
    ∧ guessHandler c6Room "p2" "cat" 2000 none (fun _ => none) 0
      = (c6Room, none, some "You have already guessed correctly") :=
  C6_already_guessed c6Room c6Game "p2" "cat" 2000 0 none (fun _ => none)
    rfl rfl rfl (by decide) (by decide)


/-- Fresh-award reduction of `awardGuessScore`: with an active game, a
recorded non-zero round start, an unrecorded player found in the registry,
the function scores `calculateScore(drawTime, (t - s0)/1000, isDrawer)` and
hands the new total to `updatePlayerScore`. -/
theorem awardGuessScore_fresh_eq (room : Room) (g : GameState) (playerId : String)
    (t s0 fallbackNow : ℤ) (p : PlayerRec) (getP : String → Option PlayerRec)
    (hg : room.game = some g) (hs : room.status = .in_game)
    (hrst : g.roundStartTime = some s0) (hs0 : s0 ≠ 0)
    (hnd : isCurrentDrawer room playerId = false)
    (hp : getP playerId = some p) :
    awardGuessScore room playerId t none getP fallbackNow
      = (⟨true, some (calculateScore (room.settings.drawTime : ℚ) (((t : ℚ) - (s0 : ℚ)) / 1000) false),
          p.score.getD 0 + calculateScore (room.settings.drawTime : ℚ) (((t : ℚ) - (s0 : ℚ)) / 1000) false, none⟩,
         some (playerId, p.score.getD 0 + calculateScore (room.settings.drawTime : ℚ) (((t : ℚ) - (s0 : ℚ)) / 1000) false)) := by
  have hv : hasActiveGame room = ⟨true, none⟩ := by
    unfold hasActiveGame
    rw [hg]
    simp [hs]
  unfold awardGuessScore
  simp only [hg, hv]
  simp [hrst, hs0, hp, hnd]

/-- C3 (amended): for a fresh (not yet recorded) correct guess by a
non-drawer in an active game with recorded round start `s0`, the awarded
score is `max(10, floor(100 + 100*(1 - e/drawTime)))` when the elapsed time
`e = (t - s0)/1000` lies in `[0, drawTime]`, and `MIN_SCORE = 10` when `e`
is negative or past the deadline — the code does not clamp the ratio, so a
late guess earns 10, not 100. -/
theorem C3_awardGuessScore (room : Room) (g : GameState) (playerId : String)
    (t s0 fallbackNow : ℤ) (p : PlayerRec) (getP : String → Option PlayerRec)
    (hg : room.game = some g) (hs : room.status = .in_game)
    (hrst : g.roundStartTime = some s0) (hs0 : s0 ≠ 0)
    (hnd : isCurrentDrawer room playerId = false)
    (hp : getP playerId = some p)
    (hD : 0 < room.settings.drawTime) :
    (awardGuessScore room playerId t none getP fallbackNow).1.success = true
    ∧ ((0 : ℚ) ≤ ((t : ℚ) - (s0 : ℚ)) / 1000 →
        ((t : ℚ) - (s0 : ℚ)) / 1000 ≤ (room.settings.drawTime : ℚ) →
        (awardGuessScore room playerId t none getP fallbackNow).1.score
          = some (max 10 ⌊(100 : ℚ)
              + 100 * (1 - (((t : ℚ) - (s0 : ℚ)) / 1000) / (room.settings.drawTime : ℚ))⌋))
    ∧ ((room.settings.drawTime : ℚ) < ((t : ℚ) - (s0 : ℚ)) / 1000 →
        (awardGuessScore room playerId t none getP fallbackNow).1.score = some 10)
    ∧ (((t : ℚ) - (s0 : ℚ)) / 1000 < 0 →
        (awardGuessScore room playerId t none getP fallbackNow).1.score = some 10) := by
  have hDq : (0 : ℚ) < (room.settings.drawTime : ℚ) := by exact_mod_cast hD
  have hred := awardGuessScore_fresh_eq room g playerId t s0 fallbackNow p getP
    hg hs hrst hs0 hnd hp
  refine ⟨by rw [hred], ?_, ?_, ?_⟩
  · intro h0 h1
    rw [hred]
    unfold calculateScore
    rw [if_neg]
    · rfl
    · push_neg
      exact ⟨hDq, h0, h1⟩
  · intro hover
    rw [hred]
    unfold calculateScore
    rw [if_pos (Or.inr (Or.inr hover))]
    rfl
  · intro hneg
    rw [hred]
    unfold calculateScore
    rw [if_pos (Or.inr (Or.inl hneg))]
    rfl

/-- Drawing-phase room with round start at 1000 ms and the default 80 s
draw time. -/
def c3Game : GameState :=
  { phase := .drawing, currentRound := 1, totalRounds := 3,
    drawerIndex := 0, drawerId := some "p1", guessedPlayers := [],
    selectedWord := some "cat", maskedWord := some "_ _ _",
    roundStartTime := some 1000 }

def c3Room : Room :=
  { id := "ROOM06", ownerId := "p1", players := ["p1", "p2"],
    settings := DEFAULT_SETTINGS, status := .in_game, game := some c3Game }

def c3GetP : String → Option PlayerRec :=
  fun pid => if pid = "p2" then some ⟨"p2", "Bob", some 0⟩ else none

/-- C3 counterexample: one second past the 80 s deadline the code awards 10,
while the claim's clamped formula yields 100. -/
theorem C3_clamp_counterexample :
    (awardGuessScore c3Room "p2" 82000 none c3GetP 0).1.score = some 10
    ∧ specClampedScore 80 81 = 100
    ∧ (awardGuessScore c3Room "p2" 82000 none c3GetP 0).1.score
        ≠ some (specClampedScore 80 81) := by
  have hdt : c3Room.settings.drawTime = 80 := rfl
  have hred := awardGuessScore_fresh_eq c3Room c3Game "p2" 82000 1000 0
    ⟨"p2", "Bob", some 0⟩ c3GetP rfl rfl rfl (by decide) (by decide) (by decide)
  have hcalc : calculateScore (c3Room.settings.drawTime : ℚ)
      (((82000 : ℚ) - ((1000 : ℤ) : ℚ)) / 1000) false = 10 := by
    rw [hdt]
    unfold calculateScore
    rw [if_pos]
    · rfl
    · right
      right
      norm_num
  have hspec : specClampedScore 80 81 = 100 := by
    unfold specClampedScore
    rw [max_eq_right (by norm_num : (0:ℚ) ≤ 81/80),
        min_eq_left (by norm_num : (1:ℚ) ≤ 81/80)]
    norm_num
  have hscore : (awardGuessScore c3Room "p2" 82000 none c3GetP 0).1.score = some 10 := by
    rw [hred]
    simp only
    rw [show (((82000 : ℤ) : ℚ) - ((1000 : ℤ) : ℚ)) / 1000
          = (((82000 : ℚ)) - ((1000 : ℤ) : ℚ)) / 1000 by norm_num]
    rw [hcalc]
  refine ⟨hscore, hspec, ?_⟩
  rw [hscore, hspec]
  decide

/-- C3 witness: the score theorem at 10 s into an 80 s round yields 187. -/
theorem C3_awardGuessScore_witness :
    (awardGuessScore c3Room "p2" 11000 none c3GetP 0).1.score = some 187 := by
  obtain ⟨hsucc, hin, hover, hneg⟩ :=
    C3_awardGuessScore c3Room c3Game "p2" 11000 1000 0 ⟨"p2", "Bob", some 0⟩ c3GetP
      rfl rfl rfl (by decide) (by decide) (by decide) (by decide)
  rw [hin (by norm_num) (by norm_num [c3Room, DEFAULT_SETTINGS])]
  have hdt : c3Room.settings.drawTime = 80 := rfl
  rw [hdt]
  rw [show (((11000 : ℤ) : ℚ) - ((1000 : ℤ) : ℚ)) / 1000 / ((80 : ℤ) : ℚ) = (1/8 : ℚ) by norm_num]
  rw [show (100 : ℚ) + 100 * (1 - 1/8) = (375/2 : ℚ) by norm_num]
  rw [show ⌊(375/2 : ℚ)⌋ = 187 by norm_num [Int.floor_eq_iff]]
  rfl

theorem getWordPool_ne_nil (customs : List String) : getWordPool customs ≠ [] := by
  unfold getWordPool
  split_ifs
  · intro hc
    exact absurd (List.append_eq_nil.mp hc).1 (by decide)
  · decide

/-- C8 (amended): option generation returns `min 3 |pool|` entries of the
shuffled pool (always 3, the builtin list alone has 150 entries); the
entries sit at distinct positions, so they are pairwise-distinct words
whenever the pool has no duplicate entries — but `WORD_LIST` itself lists
`telescope` and `microscope` twice, so duplicate options are possible (see
the counterexample). -/
theorem C8_generateWordOptions (room : Room) (g : GameState) (shuffled : List String)
    (hg : room.game = some g) (hs : room.status = .in_game)
    (hph : g.phase = .word_select)
    (hperm : shuffled.Perm (getWordPool room.settings.customWords)) :
    effectiveWordPool (getWordPool room.settings.customWords)
      = getWordPool room.settings.customWords
    ∧ (generateOptionsForDrawer room shuffled).options = some (generateWordOptions shuffled)
    ∧ (generateWordOptions shuffled).length
        = min 3 (getWordPool room.settings.customWords).length
    ∧ ((getWordPool room.settings.customWords).Nodup → (generateWordOptions shuffled).Nodup) := by
  have hv : hasActiveGame room = ⟨true, none⟩ := by
    unfold hasActiveGame
    rw [hg]
    simp [hs]
  refine ⟨?_, ?_, ?_, ?_⟩
  · unfold effectiveWordPool
    rw [if_neg]
    simp [List.isEmpty_iff, getWordPool_ne_nil]
  · unfold generateOptionsForDrawer
    simp only [hg, hv]
    simp [hph]
  · unfold generateWordOptions
    rw [List.length_take]
    have hlen := hperm.length_eq
    omega
  · intro hnd
    have h2 : shuffled.Nodup := hperm.nodup_iff.mpr hnd
    exact h2.sublist (List.take_sublist _ _)

/-- A reachable shuffle of the builtin pool that puts both copies of
`telescope` in front. -/
def c8Shuffle : List String :=
  "telescope" :: "telescope" :: ((WORD_LIST.erase "telescope").erase "telescope")

/-- Word-select room with no custom words. -/
def c8Game : GameState :=
  { phase := .word_select, currentRound := 1, totalRounds := 3,
    drawerIndex := 0, drawerId := some "p1", guessedPlayers := [] }

def c8Room : Room :=
  { id := "ROOM07", ownerId := "p1", players := ["p1", "p2"],
    settings := DEFAULT_SETTINGS, status := .in_game, game := some c8Game }

set_option maxRecDepth 8000 in
/-- C8 counterexample: a permutation of the builtin pool under which the
three generated options contain the word `telescope` twice. -/
theorem C8_duplicate_options_counterexample :
    c8Shuffle.Perm (getWordPool [])
    ∧ generateWordOptions c8Shuffle = ["telescope", "telescope", "cat"]
    ∧ ¬ (generateWordOptions c8Shuffle).Nodup := by
  refine ⟨?_, by decide, by decide⟩
  have m1 : "telescope" ∈ WORD_LIST := by decide
  have m2 : "telescope" ∈ WORD_LIST.erase "telescope" := by decide
  exact ((List.perm_cons_erase m1).trans ((List.perm_cons_erase m2).cons "telescope")).symm

/-- C8 witness: the option theorem applied to the identity shuffle of the
builtin pool. -/
theorem C8_generateWordOptions_witness :
    effectiveWordPool (getWordPool c8Room.settings.customWords)
      = getWordPool c8Room.settings.customWords
    ∧ (generateOptionsForDrawer c8Room WORD_LIST).options
        = some (generateWordOptions WORD_LIST)
    ∧ (generateWordOptions WORD_LIST).length
        = min 3 (getWordPool c8Room.settings.customWords).length
    ∧ ((getWordPool c8Room.settings.customWords).Nodup
        → (generateWordOptions WORD_LIST).Nodup) :=
  C8_generateWordOptions c8Room c8Game WORD_LIST rfl rfl rfl (List.Perm.refl _)


theorem allKeys_str (s : String) : (Json.str s).allKeys = [] := rfl

theorem allKeys_num (n : ℤ) : (Json.num n).allKeys = [] := rfl

theorem allKeys_bool (b : Bool) : (Json.bool b).allKeys = [] := rfl

theorem allKeys_null : Json.null.allKeys = [] := rfl

theorem allKeys_arr (js : List Json) : (Json.arr js).allKeys = Json.allKeysArr js := rfl

theorem allKeys_obj (kvs : List (String × Json)) :
    (Json.obj kvs).allKeys = Json.allKeysObj kvs := rfl

theorem allKeysObj_nil : Json.allKeysObj [] = [] := rfl

theorem allKeysObj_cons (k : String) (v : Json) (rest : List (String × Json)) :
    Json.allKeysObj ((k, v) :: rest) = k :: (v.allKeys ++ Json.allKeysObj rest) := rfl

theorem allKeysArr_map_str (l : List String) :
    Json.allKeysArr (l.map Json.str) = [] := by
  induction l with
  | nil => rfl
  | cons a t ih => simp [Json.allKeysArr, allKeys_str, ih]

theorem mem_allKeysArr {a : String} {js : List Json} :
    a ∈ Json.allKeysArr js ↔ ∃ j ∈ js, a ∈ j.allKeys := by
  induction js with
  | nil => simp [Json.allKeysArr]
  | cons j rest ih =>
    simp [Json.allKeysArr, List.mem_append, ih]

theorem allKeys_settingsJson (s : Settings) :
    (settingsJson s).allKeys
      = ["maxPlayers", "drawTime", "rounds", "hints", "customWords"] := by
  simp [settingsJson, allKeys_obj, allKeysObj_cons, allKeysObj_nil, allKeys_num,
    allKeys_bool, allKeys_arr, allKeysArr_map_str]

theorem allKeys_serializePlayerEntry (ownerId : String) (p : PlayerRec) :
    (serializePlayerEntry ownerId p).allKeys = ["id", "name", "isOwner"] := rfl

theorem filterMap_map_option {α β γ : Type} (getP : α → Option β) (f : β → γ) (l : List α) :
    (l.map getP).filterMap (fun op => op.map f) = (l.filterMap getP).map f := by
  rw [List.filterMap_map, List.map_filterMap]
  rfl

theorem filterMap_length_of_all_isSome {α β : Type} (getP : α → Option β) (l : List α)
    (hall : ∀ a ∈ l, (getP a).isSome) : (l.filterMap getP).length = l.length := by
  induction l with
  | nil => rfl
  | cons a t ih =>
    obtain ⟨b, hb⟩ := Option.isSome_iff_exists.mp (hall a (by simp))
    rw [List.filterMap_cons, hb]
    simp only [List.length_cons]
    rw [ih (fun x hx => hall x (by simp [hx]))]

/-- C2 (amended): `serializeRoom` emits exactly the keys `id`, `ownerId`,
`players`, `settings`, `status` (the room code travels under `id`, not
`code`); the players array holds one `{id, name, isOwner}` object — without
a `score` field — per member that resolves in the registry, in membership
order; and no serialization (room or game state) contains a `selectedWord`
key anywhere. -/
theorem C2_serializeRoom_shape (room : Room) (getP : String → Option PlayerRec)
    (hall : ∀ pid ∈ room.players, (getP pid).isSome) :
    serializeRoom room getP
      = Json.obj [("id", .str room.id), ("ownerId", .str room.ownerId),
          ("players", .arr ((room.players.filterMap getP).map (serializePlayerEntry room.ownerId))),
          ("settings", settingsJson room.settings), ("status", .str room.status.toJs)]
    ∧ (room.players.filterMap getP).length = room.players.length
    ∧ (∀ p, (serializePlayerEntry room.ownerId p).topKeys = ["id", "name", "isOwner"])
    ∧ "selectedWord" ∉ (serializeRoom room getP).allKeys
    ∧ (∀ j, serializeGameState room = some j → "selectedWord" ∉ j.allKeys) := by
  refine ⟨?_, filterMap_length_of_all_isSome getP room.players hall, fun p => rfl, ?_, ?_⟩
  · unfold serializeRoom
    rw [filterMap_map_option]
  · intro hmem
    unfold serializeRoom at hmem
    simp only [allKeys_obj, allKeysObj_cons, allKeysObj_nil, allKeys_str, allKeys_arr,
      allKeys_settingsJson] at hmem
    simp at hmem
    obtain ⟨j, hj, hmemj⟩ := mem_allKeysArr.mp hmem
    obtain ⟨op, hop, hjeq⟩ := List.mem_filterMap.mp hj
    obtain ⟨p, hpeq, rfl⟩ := Option.map_eq_some'.mp hjeq
    rw [allKeys_serializePlayerEntry] at hmemj
    simp at hmemj
  · intro j hj
    unfold serializeGameState at hj
    rcases hg : room.game with _ | g
    · rw [hg] at hj
      exact Option.noConfusion hj
    · rw [hg] at hj
      injection hj with hj
      rw [← hj]
      intro hmem
      have hdrawer : ∀ o : Option String,
          Json.allKeys (match o with | some d => Json.str d | none => Json.null) = [] := by
        intro o
        cases o <;> rfl
      have hmask : ∀ o : Option String,
          Json.allKeys (match o with
            | some m => if m = "" then Json.null else Json.str m
            | none => Json.null) = [] := by
        intro o
        rcases o with _ | m
        · rfl
        · by_cases hm : m = "" <;> simp [hm, allKeys_str, allKeys_null]
      simp only [allKeys_obj, allKeysObj_cons, allKeysObj_nil, allKeys_str, allKeys_num,
        allKeys_arr, hdrawer, hmask, allKeysArr_map_str] at hmem
      simp at hmem

/-- Registry holding the two members of `c1Room`. -/
def c2GetP : String → Option PlayerRec :=
  fun pid =>
    if pid = "p1" then some ⟨"p1", "Alice", none⟩
    else if pid = "p2" then some ⟨"p2", "Bob", none⟩
    else none

/-- C2 counterexample: on a concrete room the code emits an `id` key (no
`code` key) and player entries without a `score` field, so the serialization
differs from the `{code, ..., players:[{id,name,isOwner,score}], ...}` object
the claim describes. -/
theorem C2_serializeRoom_counterexample :
    "code" ∉ (serializeRoom c1Room c2GetP).topKeys
    ∧ "code" ∈ (specSerializeRoom c1Room c2GetP).topKeys
    ∧ "score" ∉ (serializePlayerEntry c1Room.ownerId ⟨"p1", "Alice", none⟩).topKeys
    ∧ serializeRoom c1Room c2GetP ≠ specSerializeRoom c1Room c2GetP := by
  refine ⟨by decide, by decide, by decide, ?_⟩
  intro h
  exact absurd (congrArg Json.topKeys h) (by decide)

/-- C2 witness: the shape theorem applied to a concrete fully-resolvable
room. -/
theorem C2_serializeRoom_shape_witness :
    serializeRoom c1Room c2GetP
      = Json.obj [("id", .str c1Room.id), ("ownerId", .str c1Room.ownerId),
          ("players", .arr ((c1Room.players.filterMap c2GetP).map (serializePlayerEntry c1Room.ownerId))),
          ("settings", settingsJson c1Room.settings), ("status", .str c1Room.status.toJs)]
    ∧ (c1Room.players.filterMap c2GetP).length = c1Room.players.length
    ∧ (∀ p, (serializePlayerEntry c1Room.ownerId p).topKeys = ["id", "name", "isOwner"])
    ∧ "selectedWord" ∉ (serializeRoom c1Room c2GetP).allKeys
    ∧ (∀ j, serializeGameState c1Room = some j → "selectedWord" ∉ j.allKeys) :=
  C2_serializeRoom_shape c1Room c2GetP (by decide)


end Scribble
